import Mathlib

/-
  Verification development for a boundary-tag heap allocator (alloc.c).

  The allocator manages a single linear heap region tiled with blocks.
  Each block is a 32-byte header (size, free flag, padding, next, prev),
  a payload of `size` bytes, and an 8-byte footer duplicating `size`.
  Free blocks form an intrusive doubly-linked list threaded through the
  header's next/prev fields.

  Shallow embedding conventions:
  * A block is a structured record carrying its header address `addr`,
    header size field `size`, footer size field `ftr` (stored at
    `addr + 32 + size`), free flag, and the next/prev free-list links
    (as header addresses; `none` models NULL).
  * The heap is the address-ordered list of block records plus the free
    list head, the region bounds, the payload byte contents `mem`
    (indexed by absolute address), and `limit`, the break-pointer bound:
    the sbrk primitive succeeds iff the new top stays within `limit`.
  * Address arithmetic follows the C exactly: the block after `b` starts
    at `b.addr + 32 + b.size + 8`; the footer preceding address `a` is
    the `ftr` field of the block record ending at `a`.
  * Dereferencing an address that is not a live block header, and the
    fatal abort() on detected free-list corruption, are both modelled by
    the `none` result of Option-valued operations; theorems distinguish
    the cases by hypotheses on the state.
  * The infinite traversal a cyclic (corrupted) free list would cause in
    C is cut by fuel (list length + 1, enough for any intact chain).
-/

namespace Alloc

/-- sizeof(metadata_t): 8 (size_t size) + 4 (int free) + 4 (int padding)
    + 8 (next) + 8 (prev) = 32 bytes on the 64-bit target. -/
def HDR : Nat := 32

/-- sizeof(footer_t): one size_t, 8 bytes. -/
def FTR : Nat := 8

/-- Modulus of the 64-bit size_t used by the C code. -/
def W : Nat := 2 ^ 64

/-- One block record: header address, header size field, footer size field,
    free flag, and the free-list links stored in the header. -/
structure Block where
  addr : Nat
  size : Nat
  ftr : Nat
  free : Bool
  next : Option Nat
  prev : Option Nat
deriving Repr, DecidableEq

/-- Allocator state: blocks of the heap region in address order, the free
    list head, the region bounds (heap_start, heap_top), the payload byte
    contents by absolute address, and the sbrk success bound. -/
structure AllocState where
  blocks : List Block
  freeHead : Option Nat
  heapStart : Nat
  heapTop : Nat
  mem : Nat → Nat
  limit : Nat

/-- Find the block record whose header is at address `a` (pointer lookup). -/
def lookupB : List Block → Nat → Option Block
  | [], _ => none
  | b :: bs, a => if b.addr = a then some b else lookupB bs a

/-- Update the block record whose header is at address `a` (a store through
    a block pointer). -/
def mapUpdate : List Block → Nat → (Block → Block) → List Block
  | [], _, _ => []
  | b :: bs, a, f => (if b.addr = a then f b else b) :: mapUpdate bs a f

/-- Drop the block record at address `a`: its bytes have been absorbed into
    a neighbouring block's payload during a merge. -/
def eraseB : List Block → Nat → List Block
  | [], _ => []
  | b :: bs, a => if b.addr = a then eraseB bs a else b :: eraseB bs a

/-- Insert a freshly carved block record, keeping address order. -/
def insertB : List Block → Block → List Block
  | [], nb => [nb]
  | b :: bs, nb => if nb.addr < b.addr then nb :: b :: bs else b :: insertB bs nb

def setBlockF (s : AllocState) (a : Nat) (f : Block → Block) : AllocState :=
  { s with blocks := mapUpdate s.blocks a f }

/-- aligned_size: round the requested size up to the next multiple of 8.
    The addition is size_t arithmetic, so it wraps mod 2^64: for the
    values 2^64 - 7 … 2^64 - 1 (the non-multiples of 8 above 2^64 - 8)
    the C result wraps to 0. -/
def aligned_size (n : Nat) : Nat :=
  if n % 8 = 0 then n else (n + (8 - n % 8)) % W

/-- set_footer: footer->size = block->size, the footer being located at
    block + sizeof(metadata_t) + block->size. -/
def set_footer (s : AllocState) (a : Nat) : AllocState :=
  setBlockF s a (fun x => { x with ftr := x.size })

/-- find_free_block's loop: walk the next links from `c` looking for the
    first block with curr->size >= size. Fuel cuts the infinite loop a
    cyclic corrupted list would cause in C. -/
def find_free_aux (s : AllocState) : Nat → Option Nat → Nat → Option Nat
  | 0, _, _ => none
  | _ + 1, none, _ => none
  | fuel + 1, some c, sz =>
    match lookupB s.blocks c with
    | none => none
    | some b => if sz ≤ b.size then some c else find_free_aux s fuel b.next sz

/-- find_free_block: first-fit scan of the free list. -/
def find_free_block (s : AllocState) (sz : Nat) : Option Nat :=
  find_free_aux s (s.blocks.length + 1) s.freeHead sz

/-- add_to_free_list: set block->free = 1 and push at the head. -/
def add_to_free_list (s : AllocState) (a : Nat) : AllocState :=
  match s.freeHead with
  | none =>
    { setBlockF s a (fun b => { b with free := true, next := none, prev := none })
      with freeHead := some a }
  | some h =>
    let s1 := setBlockF s a (fun b => { b with free := true, prev := none, next := some h })
    let s2 := setBlockF s1 h (fun b => { b with prev := some a })
    { s2 with freeHead := some a }

/-- The traversal of remove_from_free_list, reified as a search: `some true`
    when the loop reaches `a`, `some false` when it falls off the end of
    the list without meeting `a`, `none` when it dereferences a dangling
    pointer or runs out of fuel (a cyclic corrupted list). -/
def chainFind (s : AllocState) : Nat → Option Nat → Nat → Option Bool
  | _, none, _ => some false
  | 0, some _, _ => none
  | fuel + 1, some c, a =>
    if c = a then some true
    else
      match lookupB s.blocks c with
      | none => none
      | some cb => chainFind s fuel cb.next a

/-- First two writes of remove_from_free_list once the loop has found
    `block` (= curr): block->free = 0, and the head advances when curr
    was the list head. -/
def removePrep (s : AllocState) (a : Nat) (b : Block) : AllocState :=
  let s1 := setBlockF s a (fun x => { x with free := false })
  if s.freeHead = some a then { s1 with freeHead := b.next } else s1

/-- The check curr->next && curr->next->prev != curr: `none` is the fatal
    abort (also used for the undefined dereference of a dangling next). -/
def nextCheckOk (s2 : AllocState) (a : Nat) (b : Block) : Option Unit :=
  match b.next with
  | none => some ()
  | some n =>
    match lookupB s2.blocks n with
    | none => none
    | some nb => if nb.prev = some a then some () else none

/-- The check curr->prev && curr->prev->next != curr. -/
def prevCheckOk (s2 : AllocState) (a : Nat) (b : Block) : Option Unit :=
  match b.prev with
  | none => some ()
  | some q =>
    match lookupB s2.blocks q with
    | none => none
    | some qb => if qb.next = some a then some () else none

/-- The standard unlink writes: next->prev = curr->prev, prev->next =
    curr->next, then curr's own links are cleared. -/
def unlinkWrites (s2 : AllocState) (a : Nat) (b : Block) : AllocState :=
  let s3 := match b.next with
    | some n => setBlockF s2 n (fun x => { x with prev := b.prev })
    | none => s2
  let s4 := match b.prev with
    | some q => setBlockF s3 q (fun x => { x with next := b.next })
    | none => s3
  setBlockF s4 a (fun x => { x with next := none, prev := none })

/-- Body of remove_from_free_list at the found block: clear the flag and
    advance the head, then verify the doubly-linked invariant on both
    neighbours BEFORE the unlink writes; a violation is the fatal
    abort(), modelled as `none`. `b` holds the fields of the block as
    read at the match (none of them are changed before the reads the C
    code performs, and when the checks pass the aliasing cases
    next == curr / prev == curr make the unlink writes value-preserving,
    so reusing the pre-read fields is faithful). -/
def removeFound (s : AllocState) (a : Nat) (b : Block) : Option AllocState :=
  match nextCheckOk (removePrep s a b) a b with
  | none => none
  | some _ =>
    match prevCheckOk (removePrep s a b) a b with
    | none => none
    | some _ => some (unlinkWrites (removePrep s a b) a b)

/-- The loop of remove_from_free_list: walk the list; when `curr == block`
    run the unlink body; reaching the end of the list is a silent return. -/
def remove_aux (s : AllocState) (a : Nat) : Nat → Option Nat → Option AllocState
  | _, none => some s
  | 0, some _ => some s
  | fuel + 1, some c =>
    if c = a then
      match lookupB s.blocks a with
      | none => none
      | some b => removeFound s a b
    else
      match lookupB s.blocks c with
      | none => none
      | some cb => remove_aux s a fuel cb.next

/-- remove_from_free_list. -/
def remove_from_free_list (s : AllocState) (a : Nat) : Option AllocState :=
  remove_aux s a (s.blocks.length + 1) s.freeHead

/-- coalesce_next: merge with the physically following block when it exists
    (is not the heap top) and is free. The absorbed record is erased, the
    surviving block grows by footer + header + next->size, its footer is
    rewritten, and it is re-inserted at the head of the free list. -/
def coalesce_next (s : AllocState) (a : Nat) : Option AllocState :=
  match lookupB s.blocks a with
  | none => none
  | some b =>
    let nAddr := a + HDR + b.size + FTR
    if nAddr = s.heapTop then some s
    else
      match lookupB s.blocks nAddr with
      | none => none
      | some nb =>
        if nb.free then
          match remove_from_free_list s a with
          | none => none
          | some s1 =>
            match remove_from_free_list s1 nAddr with
            | none => none
            | some s2 =>
              let s3 := { s2 with blocks := eraseB s2.blocks nAddr }
              let s4 := setBlockF s3 a
                (fun x => { x with size := b.size + FTR + HDR + nb.size })
              some (add_to_free_list (set_footer s4 a) a)
        else some s

/-- The footer stored immediately before address `a`: it belongs to the
    block record that ends exactly at `a` (header + payload + footer). -/
def footerBefore : List Block → Nat → Option Block
  | [], _ => none
  | b :: bs, a => if b.addr + HDR + b.size + FTR = a then some b else footerBefore bs a

/-- coalesce_prev: if `block` is not the first block of the region, read
    the footer just before it, compute the predecessor's header address
    from that footer's size value, and merge symmetrically (the
    predecessor absorbs `block`) when the predecessor is free. -/
def coalesce_prev (s : AllocState) (a : Nat) : Option AllocState :=
  if a = s.heapStart then some s
  else
    match footerBefore s.blocks a with
    | none => none
    | some p =>
      let pAddr := a - FTR - p.ftr - HDR
      match lookupB s.blocks pAddr, lookupB s.blocks a with
      | some pb, some b =>
        if pb.free then
          match remove_from_free_list s a with
          | none => none
          | some s1 =>
            match remove_from_free_list s1 pAddr with
            | none => none
            | some s2 =>
              let s3 := { s2 with blocks := eraseB s2.blocks a }
              let s4 := setBlockF s3 pAddr
                (fun x => { x with size := pb.size + FTR + HDR + b.size })
              some (add_to_free_list (set_footer s4 pAddr) pAddr)
        else some s
      | _, _ => none

/-- coalesce: forward merge first, then backward merge on the (possibly
    enlarged) block. -/
def coalesce (s : AllocState) (a : Nat) : Option AllocState :=
  match coalesce_next s a with
  | none => none
  | some s1 => coalesce_prev s1 a

/-- split_block: both call sites pass `sz ≤ block->size` (find_free_block
    guarantees it), so the size_t subtraction `leftover` does not wrap.
    If the leftover is below header + footer + 8 usable bytes, allocate the
    whole block; otherwise shrink to `sz`, carve a remainder record just
    after, free-list it, and attempt a forward coalesce on the remainder. -/
def split_block (s : AllocState) (a sz : Nat) : Option AllocState :=
  match lookupB s.blocks a with
  | none => none
  | some b =>
    let leftover := b.size - sz
    if leftover < HDR + FTR + 8 then
      match remove_from_free_list s a with
      | none => none
      | some s1 => some (setBlockF s1 a (fun x => { x with free := false }))
    else
      match remove_from_free_list s a with
      | none => none
      | some s1 =>
        let s2 := set_footer (setBlockF s1 a
          (fun x => { x with size := sz, free := false })) a
        let nAddr := a + HDR + sz + FTR
        let nb : Block :=
          { addr := nAddr, size := leftover - HDR - FTR,
            ftr := leftover - HDR - FTR,  -- set_footer(new_block) inlined
            free := true, next := none, prev := none }
        let s3 := { s2 with blocks := insertB s2.blocks nb }
        let s4 := add_to_free_list s3 nAddr
        coalesce_next s4 nAddr

/-- malloc: null on size 0; first-fit search then split, or extend the
    heap by full_size + header + footer — a size_t sum, wrapping mod 2^64
    for near-maximal sizes as in C — (sbrk succeeds iff the new top is
    within `limit`); returns the payload address (header address + 32).
    The lazy first-call initialisation of heap_start/heap_top is part of
    the state's construction here, and the dead `heap_top == (void*)-1`
    re-check is dropped. -/
def malloc (s : AllocState) (sz : Nat) : Option (Option Nat × AllocState) :=
  if sz = 0 then some (none, s)
  else
    let full := aligned_size sz
    match find_free_block s full with
    | some a =>
      match split_block s a full with
      | none => none
      | some s1 => some (some (a + HDR), s1)
    | none =>
      if s.heapTop + ((full + HDR + FTR) % W) ≤ s.limit then
        let a := s.heapTop
        let nb : Block :=
          { addr := a, size := full, ftr := full,  -- set_footer inlined
            free := false, next := none, prev := none }
        some (some (a + HDR), { s with blocks := s.blocks ++ [nb],
                                       heapTop := a + ((full + HDR + FTR) % W) })
      else some (none, s)

/-- memset(p, v, n): write byte v over addresses [p, p + n). -/
def memset (s : AllocState) (p v n : Nat) : AllocState :=
  { s with mem := fun i => if p ≤ i ∧ i < p + n then v else s.mem i }

/-- memcpy(dst, src, n): copy bytes from [src, src + n) to [dst, dst + n). -/
def memcpy (s : AllocState) (dst src n : Nat) : AllocState :=
  { s with mem := fun i => if dst ≤ i ∧ i < dst + n then s.mem (src + (i - dst)) else s.mem i }

/-- free: no-op on NULL; otherwise step back over the header to the block
    record, push it on the free list, and coalesce both directions. -/
def free (s : AllocState) (p : Option Nat) : Option AllocState :=
  match p with
  | none => some s
  | some ptr =>
    let a := ptr - HDR
    coalesce (add_to_free_list s a) a

/-- calloc: null if either argument is 0; compute the size_t product
    (wrapping at 2^64) and reject on the reverse-division overflow check;
    delegate to malloc and zero the first num * size bytes via memset. -/
def calloc (s : AllocState) (num sz : Nat) : Option (Option Nat × AllocState) :=
  if num = 0 ∨ sz = 0 then some (none, s)
  else
    let total := (num * sz) % W
    if total / num = sz then
      match malloc s total with
      | none => none
      | some (none, s1) => some (none, s1)
      | some (some p, s1) => some (some p, memset s1 p 0 total)
    else some (none, s)

/-- realloc: NULL pointer behaves as malloc; size 0 as free-and-null.
    If the aligned size fits the current block, return it unchanged.
    Else try to absorb the physically next block when it lies below the
    heap top, is free, and the combined size reaches the request (the
    whole neighbour is absorbed, footer rewritten, same pointer returned).
    Otherwise allocate anew, copy old_size bytes, free the old block. -/
def realloc (s : AllocState) (p : Option Nat) (sz : Nat) : Option (Option Nat × AllocState) :=
  match p with
  | none => malloc s sz
  | some ptr =>
    if sz = 0 then
      match free s (some ptr) with
      | none => none
      | some s1 => some (none, s1)
    else
      let a := ptr - HDR
      match lookupB s.blocks a with
      | none => none
      | some b =>
        let old := b.size
        let nsz := aligned_size sz
        if nsz ≤ old then some (some ptr, s)
        else
          let fallback : Option (Option Nat × AllocState) :=
            match malloc s sz with
            | none => none
            | some (none, s1) => some (none, s1)
            | some (some np, s1) =>
              let s2 := memcpy s1 np ptr old
              match free s2 (some ptr) with
              | none => none
              | some s3 => some (some np, s3)
          let nAddr := a + HDR + old + FTR
          if nAddr < s.heapTop then
            match lookupB s.blocks nAddr with
            | none => none
            | some nb =>
              if nb.free then
                let combined := old + HDR + nb.size + FTR
                if nsz ≤ combined then
                  match remove_from_free_list s nAddr with
                  | none => none
                  | some s1 =>
                    let s2 := { s1 with blocks := eraseB s1.blocks nAddr }
                    let s3 := setBlockF s2 a (fun x => { x with size := combined })
                    some (some ptr, set_footer s3 a)
                else fallback
              else fallback
          else fallback

/-- The four public operations, for statements quantifying over all of them. -/
inductive AllocOp where
  | alloc : Nat → AllocOp
  | zalloc : Nat → Nat → AllocOp
  | release : Option Nat → AllocOp
  | resize : Option Nat → Nat → AllocOp

/-- One public API call. release is wrapped to the common result shape. -/
def step (s : AllocState) : AllocOp → Option (Option Nat × AllocState)
  | .alloc n => malloc s n
  | .zalloc n m => calloc s n m
  | .release p =>
    match free s p with
    | none => none
    | some s1 => some (none, s1)
  | .resize p n => realloc s p n

/-- header.size == footer.size for every block of the heap region. -/
def footersOk (bs : List Block) : Bool :=
  bs.all (fun b => b.ftr == b.size)

/- ---------- Concrete states and traces used in the theorems ---------- -/

/-- Observable shape of the heap: (header address, payload size, free flag)
    of every block, in address order. -/
def blocksTag (s : AllocState) : List (Nat × Nat × Bool) :=
  s.blocks.map (fun b => (b.addr, b.size, b.free))

/-- A fresh heap: first sbrk(0) returned address 0, nothing allocated yet,
    and the break can grow up to address 1000. -/
def initialState : AllocState :=
  { blocks := [], freeHead := none, heapStart := 0, heapTop := 0,
    mem := fun _ => 0, limit := 1000 }

/-- a = allocate(16); release(a); b = allocate(16): record both returned
    pointers plus the final heap shape and heap top. -/
def reuseTrace : Option (Option Nat × Option Nat × List (Nat × Nat × Bool) × Nat) :=
  match malloc initialState 16 with
  | none => none
  | some (a, s1) =>
    match free s1 a with
    | none => none
    | some s2 =>
      match malloc s2 16 with
      | none => none
      | some (b, s3) => some (a, b, blocksTag s3, s3.heapTop)

/-- A heap whose single block (payload 16 at header address 0) is free and
    heads the free list, with one stale nonzero payload byte at offset 9
    (absolute address 41) left behind by a previous user of the block.
    The break cannot grow: any allocation must reuse this block. -/
def staleByteS : AllocState :=
  { blocks := [⟨0, 16, 16, true, none, none⟩], freeHead := some 0,
    heapStart := 0, heapTop := 56,
    mem := fun i => if i = 41 then 1 else 0, limit := 56 }

/-- The state reached by zero_allocate(2, 4) on the fresh heap: one
    allocated block of payload 8 at address 0, its payload zeroed. -/
def callocFreshS : AllocState :=
  memset { initialState with blocks := [⟨0, 8, 8, false, none, none⟩], heapTop := 48 }
    32 0 8

/-- A heap with one free block of payload 16 heading the free list. -/
def oneFreeS : AllocState :=
  { blocks := [⟨0, 16, 16, true, none, none⟩], freeHead := some 0,
    heapStart := 0, heapTop := 56, mem := fun _ => 0, limit := 56 }

/-- Two free-listed blocks whose links have been corrupted: the second
    block's prev pointer (999) no longer points back at the first. -/
def corruptS : AllocState :=
  { blocks := [⟨0, 16, 16, true, some 56, none⟩, ⟨56, 16, 16, true, none, some 999⟩],
    freeHead := some 0, heapStart := 0, heapTop := 112,
    mem := fun _ => 0, limit := 112 }

/-- One allocated block filling the whole region, empty free list, and a
    break that cannot move: every further allocation fails. -/
def fullHeapS : AllocState :=
  { blocks := [⟨0, 16, 16, false, none, none⟩], freeHead := none,
    heapStart := 0, heapTop := 56, mem := fun _ => 0, limit := 56 }

/-- An allocated block of payload 16 followed by a free block of payload
    64 that heads the free list. -/
def growableS : AllocState :=
  { blocks := [⟨0, 16, 16, false, none, none⟩, ⟨56, 64, 64, true, none, none⟩],
    freeHead := some 56, heapStart := 0, heapTop := 160,
    mem := fun _ => 0, limit := 160 }

/-- growableS after remove_from_free_list on the block at 56. -/
def growableS1 : AllocState :=
  { blocks := [⟨0, 16, 16, false, none, none⟩, ⟨56, 64, 64, false, none, none⟩],
    freeHead := none, heapStart := 0, heapTop := 160,
    mem := fun _ => 0, limit := 160 }

/-- A heap with one big free block (payload 80) heading the free list and
    an allocated block after it. -/
def splitDemoS : AllocState :=
  { blocks := [⟨0, 80, 80, true, none, none⟩, ⟨120, 16, 16, false, none, none⟩],
    freeHead := some 0, heapStart := 0, heapTop := 176,
    mem := fun _ => 0, limit := 176 }

/-- splitDemoS after remove_from_free_list on the block at 0. -/
def splitDemoS1 : AllocState :=
  { blocks := [⟨0, 80, 80, false, none, none⟩, ⟨120, 16, 16, false, none, none⟩],
    freeHead := none, heapStart := 0, heapTop := 176,
    mem := fun _ => 0, limit := 176 }

/-- The fresh heap right after allocate(16): one allocated block. -/
def afterAlloc16S : AllocState :=
  { initialState with blocks := [⟨0, 16, 16, false, none, none⟩], heapTop := 56 }

/-- Two physically adjacent allocated blocks of payload sizes x and y
    filling the whole region (header address 0 and x + 40), empty free
    list. -/
def pairState (x y : Nat) : AllocState :=
  { blocks := [⟨0, x, x, false, none, none⟩, ⟨x + 40, y, y, false, none, none⟩],
    freeHead := none, heapStart := 0, heapTop := x + y + 80,
    mem := fun _ => 0, limit := x + y + 80 }

/-- Three physically consecutive allocated blocks of payload sizes x, y, z
    filling the whole region, empty free list. -/
def triState (x y z : Nat) : AllocState :=
  { blocks := [⟨0, x, x, false, none, none⟩, ⟨x + 40, y, y, false, none, none⟩,
               ⟨x + y + 80, z, z, false, none, none⟩],
    freeHead := none, heapStart := 0, heapTop := x + y + z + 120,
    mem := fun _ => 0, limit := x + y + z + 120 }

/-- The pointer returned by zero_allocate, when it yields one. -/
def callocPtr (s : AllocState) (num sz : Nat) : Option Nat :=
  match calloc s num sz with
  | some (some p, _) => some p
  | _ => none

/-- The payload byte at offset i of the block zero_allocate returned,
    read immediately after the call. -/
def callocByte (s : AllocState) (num sz i : Nat) : Option Nat :=
  match calloc s num sz with
  | some (some p, s1) => some (s1.mem (p + i))
  | _ => none

/-- Two physically adjacent allocated blocks of payload sizes x and y
    surrounded by two other allocated blocks (sizes w and v), so that the
    pair sits in the middle of a larger heap; empty free list. Payload
    pointers of the pair: w + 72 and w + x + 112. -/
def ctxPairState (w x y v : Nat) : AllocState :=
  { blocks := [⟨0, w, w, false, none, none⟩, ⟨w + 40, x, x, false, none, none⟩,
               ⟨w + x + 80, y, y, false, none, none⟩,
               ⟨w + x + y + 120, v, v, false, none, none⟩],
    freeHead := none, heapStart := 0, heapTop := w + x + y + v + 160,
    mem := fun _ => 0, limit := w + x + y + v + 160 }

/-- Three consecutive allocated blocks of payload sizes x, y, z
    surrounded by allocated blocks of sizes w and v; empty free list.
    Payload pointers of the triple: w + 72, w + x + 112, w + x + y + 152. -/
def ctxTriState (w x y z v : Nat) : AllocState :=
  { blocks := [⟨0, w, w, false, none, none⟩, ⟨w + 40, x, x, false, none, none⟩,
               ⟨w + x + 80, y, y, false, none, none⟩,
               ⟨w + x + y + 120, z, z, false, none, none⟩,
               ⟨w + x + y + z + 160, v, v, false, none, none⟩],
    freeHead := none, heapStart := 0, heapTop := w + x + y + z + v + 200,
    mem := fun _ => 0, limit := w + x + y + z + v + 200 }

/-- Two successive release calls. -/
def free2 (s : AllocState) (p q : Option Nat) : Option AllocState :=
  match free s p with
  | none => none
  | some s1 => free s1 q

/-- Three successive release calls. -/
def free3 (s : AllocState) (p q r : Option Nat) : Option AllocState :=
  match free2 s p q with
  | none => none
  | some s2 => free s2 r

/- -------------------------- Helper lemmas -------------------------- -/

theorem remove_aux_of_not_found (s : AllocState) (a : Nat) :
    ∀ fuel cur, chainFind s fuel cur a = some false → remove_aux s a fuel cur = some s := by
  intro fuel
  induction fuel with
  | zero =>
    intro cur h
    cases cur with
    | none => rfl
    | some c => simp [chainFind] at h
  | succ n ih =>
    intro cur h
    cases cur with
    | none => rfl
    | some c =>
      unfold chainFind at h
      unfold remove_aux
      by_cases hc : c = a
      · rw [if_pos hc] at h
        simp at h
      · rw [if_neg hc] at h ⊢
        cases hl : lookupB s.blocks c with
        | none => rw [hl] at h; simp at h
        | some cb => rw [hl] at h; exact ih cb.next h

theorem remove_aux_of_found (s : AllocState) (a : Nat) :
    ∀ fuel cur, chainFind s fuel cur a = some true →
      remove_aux s a fuel cur =
        (match lookupB s.blocks a with
         | none => none
         | some b => removeFound s a b) := by
  intro fuel
  induction fuel with
  | zero =>
    intro cur h
    cases cur with
    | none => simp [chainFind] at h
    | some c => simp [chainFind] at h
  | succ n ih =>
    intro cur h
    cases cur with
    | none => simp [chainFind] at h
    | some c =>
      unfold chainFind at h
      unfold remove_aux
      by_cases hc : c = a
      · rw [if_pos hc]
      · rw [if_neg hc] at h ⊢
        cases hl : lookupB s.blocks c with
        | none => rw [hl] at h; simp at h
        | some cb => rw [hl] at h; exact ih cb.next h

theorem lookupB_mapUpdate_self (bs : List Block) (a : Nat) (f : Block → Block)
    (haddr : ∀ x, (f x).addr = x.addr) :
    lookupB (mapUpdate bs a f) a = (lookupB bs a).map f := by
  induction bs with
  | nil => rfl
  | cons b bs ih =>
    by_cases hb : b.addr = a
    · simp [mapUpdate, lookupB, hb, haddr b]
    · simp [mapUpdate, lookupB, hb, ih]

theorem lookupB_mapUpdate_ne (bs : List Block) (a x : Nat) (f : Block → Block)
    (haddr : ∀ b, (f b).addr = b.addr) (hne : x ≠ a) :
    lookupB (mapUpdate bs a f) x = lookupB bs x := by
  induction bs with
  | nil => rfl
  | cons b bs ih =>
    by_cases hb : b.addr = a
    · have hbx : ¬b.addr = x := by rw [hb]; exact fun h => hne h.symm
      have hax : ¬a = x := fun h => hne h.symm
      simp [mapUpdate, lookupB, hb, haddr b, hbx, hax, ih]
    · simp [mapUpdate, lookupB, hb, ih]

theorem lookupB_map_congr {α : Type} (g : Block → α)
    (hg : ∀ b1 b2, g b1 = g b2 → b1.addr = b2.addr) :
    ∀ (bs1 bs2 : List Block), bs1.map g = bs2.map g →
      ∀ x, (lookupB bs1 x).map g = (lookupB bs2 x).map g := by
  intro bs1
  induction bs1 with
  | nil =>
    intro bs2 h x
    cases bs2 with
    | nil => rfl
    | cons c cs => simp at h
  | cons b bs ih =>
    intro bs2 h x
    cases bs2 with
    | nil => simp at h
    | cons c cs =>
      simp only [List.map_cons, List.cons.injEq] at h
      obtain ⟨hhead, htail⟩ := h
      have haddr : b.addr = c.addr := hg b c hhead
      by_cases hx : b.addr = x
      · simp [lookupB, hx, haddr ▸ hx, hhead]
      · have hcx : ¬c.addr = x := haddr ▸ hx
        simp only [lookupB, if_neg hx, if_neg hcx]
        exact ih cs htail x

theorem mapUpdate_map_congr {α : Type} (g : Block → α) (f : Block → Block)
    (hf : ∀ b, g (f b) = g b) (bs : List Block) (a : Nat) :
    (mapUpdate bs a f).map g = bs.map g := by
  induction bs with
  | nil => rfl
  | cons b bs ih =>
    by_cases hb : b.addr = a <;> simp [mapUpdate, hb, hf, ih]

/-- The header metadata a merge or split rewrites: address, size, footer. -/
def hmeta (b : Block) : Nat × Nat × Nat := (b.addr, b.size, b.ftr)

/-- Everything but the free-list links. -/
def hmeta4 (b : Block) : Nat × Nat × Nat × Bool := (b.addr, b.size, b.ftr, b.free)

theorem hmeta_addr (b1 b2 : Block) (h : hmeta b1 = hmeta b2) : b1.addr = b2.addr := by
  simp only [hmeta, Prod.mk.injEq] at h
  exact h.1

theorem hmeta4_addr (b1 b2 : Block) (h : hmeta4 b1 = hmeta4 b2) : b1.addr = b2.addr := by
  simp only [hmeta4, Prod.mk.injEq] at h
  exact h.1

theorem lookupB_eraseB_self (bs : List Block) (x : Nat) :
    lookupB (eraseB bs x) x = none := by
  induction bs with
  | nil => rfl
  | cons b bs ih => by_cases hb : b.addr = x <;> simp [eraseB, lookupB, hb, ih]

theorem lookupB_eraseB_ne (bs : List Block) (x y : Nat) (hne : x ≠ y) :
    lookupB (eraseB bs y) x = lookupB bs x := by
  induction bs with
  | nil => rfl
  | cons b bs ih =>
    by_cases hb : b.addr = y
    · have hbx : ¬b.addr = x := by rw [hb]; exact fun h => hne h.symm
      have hyx : ¬y = x := fun h => hne h.symm
      simp [eraseB, lookupB, hb, hbx, hyx, ih]
    · simp [eraseB, lookupB, hb, ih]

theorem lookupB_insertB_self (bs : List Block) (nb : Block)
    (hnone : lookupB bs nb.addr = none) :
    lookupB (insertB bs nb) nb.addr = some nb := by
  induction bs with
  | nil => simp [insertB, lookupB]
  | cons b bs ih =>
    simp only [lookupB] at hnone
    by_cases hb : b.addr = nb.addr
    · rw [if_pos hb] at hnone; simp at hnone
    · rw [if_neg hb] at hnone
      by_cases hlt : nb.addr < b.addr
      · simp [insertB, hlt, lookupB]
      · simp [insertB, hlt, lookupB, hb, ih hnone]

theorem lookupB_insertB_ne (bs : List Block) (nb : Block) (x : Nat)
    (hne : x ≠ nb.addr) :
    lookupB (insertB bs nb) x = lookupB bs x := by
  have hnbx : ¬nb.addr = x := fun h => hne h.symm
  induction bs with
  | nil => simp [insertB, lookupB, hnbx]
  | cons b bs ih =>
    by_cases hlt : nb.addr < b.addr
    · simp only [insertB, if_pos hlt, lookupB, if_neg hnbx]
    · by_cases hb : b.addr = x
      · simp only [insertB, if_neg hlt, lookupB, if_pos hb]
      · simp only [insertB, if_neg hlt, lookupB, if_neg hb]
        exact ih

theorem mapUpdate_length (bs : List Block) (a : Nat) (f : Block → Block) :
    (mapUpdate bs a f).length = bs.length := by
  induction bs with
  | nil => rfl
  | cons b bs ih => simp [mapUpdate, ih]

theorem eraseB_length_le (bs : List Block) (a : Nat) :
    (eraseB bs a).length ≤ bs.length := by
  induction bs with
  | nil => exact Nat.le_refl 0
  | cons b bs ih =>
    by_cases hb : b.addr = a
    · simp only [eraseB, if_pos hb]
      exact Nat.le_succ_of_le ih
    · simp only [eraseB, if_neg hb, List.length_cons]
      exact Nat.succ_le_succ ih

theorem insertB_length (bs : List Block) (nb : Block) :
    (insertB bs nb).length = bs.length + 1 := by
  induction bs with
  | nil => rfl
  | cons b bs ih =>
    by_cases hlt : nb.addr < b.addr <;> simp [insertB, hlt, ih]

/-- The blocks of removeFound's result carry the same address/size/footer
    metadata as before: unlinking rewrites only flags and links. -/
theorem removePrep_blocks (s : AllocState) (a : Nat) (b : Block) :
    (removePrep s a b).blocks = mapUpdate s.blocks a (fun x => { x with free := false }) := by
  unfold removePrep
  split <;> rfl

theorem unlinkWrites_map_hmeta (s2 : AllocState) (a : Nat) (b : Block) :
    (unlinkWrites s2 a b).blocks.map hmeta = s2.blocks.map hmeta := by
  have hmu : ∀ (bs : List Block) (y : Nat) (f : Block → Block),
      (∀ x, hmeta (f x) = hmeta x) → (mapUpdate bs y f).map hmeta = bs.map hmeta :=
    fun bs y f hf => mapUpdate_map_congr hmeta f hf bs y
  unfold unlinkWrites
  show (mapUpdate _ a (fun x => { x with next := none, prev := none })).map hmeta = _
  rw [hmu _ a (fun x => { x with next := none, prev := none }) (fun x => rfl)]
  have h4 : ∀ (sx : AllocState),
      (match b.prev with
       | some q => setBlockF sx q (fun x => { x with next := b.next })
       | none => sx).blocks.map hmeta = sx.blocks.map hmeta := by
    intro sx
    cases b.prev with
    | none => rfl
    | some q => exact hmu _ q (fun x => { x with next := b.next }) (fun x => rfl)
  have h3 : ∀ (sx : AllocState),
      (match b.next with
       | some n => setBlockF sx n (fun x => { x with prev := b.prev })
       | none => sx).blocks.map hmeta = sx.blocks.map hmeta := by
    intro sx
    cases b.next with
    | none => rfl
    | some n => exact hmu _ n (fun x => { x with prev := b.prev }) (fun x => rfl)
  rw [h4, h3]

theorem removeFound_map_hmeta (s : AllocState) (a : Nat) (b : Block) (s1 : AllocState)
    (h : removeFound s a b = some s1) :
    s1.blocks.map hmeta = s.blocks.map hmeta := by
  unfold removeFound at h
  cases hn : nextCheckOk (removePrep s a b) a b with
  | none => rw [hn] at h; simp at h
  | some u =>
    rw [hn] at h
    cases hp : prevCheckOk (removePrep s a b) a b with
    | none => rw [hp] at h; simp at h
    | some v =>
      rw [hp] at h
      simp only [Option.some.injEq] at h
      rw [← h, unlinkWrites_map_hmeta, removePrep_blocks]
      exact mapUpdate_map_congr hmeta (fun x => { x with free := false }) (fun x => rfl) s.blocks a

theorem remove_aux_map_hmeta (s : AllocState) (a : Nat) :
    ∀ fuel cur s1, remove_aux s a fuel cur = some s1 →
      s1.blocks.map hmeta = s.blocks.map hmeta := by
  intro fuel
  induction fuel with
  | zero =>
    intro cur s1 h
    cases cur with
    | none => simp only [remove_aux, Option.some.injEq] at h; rw [← h]
    | some c => simp only [remove_aux, Option.some.injEq] at h; rw [← h]
  | succ n ih =>
    intro cur s1 h
    cases cur with
    | none => simp only [remove_aux, Option.some.injEq] at h; rw [← h]
    | some c =>
      unfold remove_aux at h
      by_cases hc : c = a
      · rw [if_pos hc] at h
        cases hl : lookupB s.blocks a with
        | none => rw [hl] at h; simp at h
        | some b => rw [hl] at h; exact removeFound_map_hmeta s a b s1 h
      · rw [if_neg hc] at h
        cases hl : lookupB s.blocks c with
        | none => rw [hl] at h; simp at h
        | some cb => rw [hl] at h; exact ih cb.next s1 h

theorem remove_map_hmeta (s : AllocState) (a : Nat) (s1 : AllocState)
    (h : remove_from_free_list s a = some s1) :
    s1.blocks.map hmeta = s.blocks.map hmeta :=
  remove_aux_map_hmeta s a _ _ s1 h

/-- add_to_free_list also rewrites only flags and links. -/
theorem add_map_hmeta (s : AllocState) (a : Nat) :
    (add_to_free_list s a).blocks.map hmeta = s.blocks.map hmeta := by
  unfold add_to_free_list
  cases s.freeHead with
  | none =>
    exact mapUpdate_map_congr hmeta
      (fun b => { b with free := true, next := none, prev := none }) (fun x => rfl) s.blocks a
  | some h =>
    show (mapUpdate (mapUpdate s.blocks a _) h (fun b => { b with prev := some a })).map hmeta = _
    rw [mapUpdate_map_congr hmeta (fun b => { b with prev := some a }) (fun x => rfl),
        mapUpdate_map_congr hmeta
          (fun b => { b with free := true, prev := none, next := some h }) (fun x => rfl)]

theorem footersOk_eq_all_map (bs : List Block) :
    footersOk bs = (bs.map hmeta).all (fun t => t.2.2 == t.2.1) := by
  induction bs with
  | nil => rfl
  | cons b bs ih =>
    simp only [footersOk] at ih ⊢
    simp only [List.map_cons, List.all_cons, ih]
    rfl

theorem footersOk_congr (bs1 bs2 : List Block) (h : bs1.map hmeta = bs2.map hmeta) :
    footersOk bs1 = footersOk bs2 := by
  rw [footersOk_eq_all_map, footersOk_eq_all_map, h]

theorem footersOk_fix (bs : List Block) (a : Nat) (f : Block → Block)
    (haddr : ∀ x, (f x).addr = x.addr)
    (h : footersOk bs = true) :
    footersOk (mapUpdate (mapUpdate bs a f) a (fun x => { x with ftr := x.size })) = true := by
  induction bs with
  | nil => rfl
  | cons b bs ih =>
    simp only [footersOk, List.all_cons, Bool.and_eq_true, beq_iff_eq] at h
    obtain ⟨h1, h2⟩ := h
    by_cases hb : b.addr = a
    · simp only [mapUpdate, if_pos hb, if_pos ((haddr b).trans hb), footersOk, List.all_cons,
                 Bool.and_eq_true, beq_iff_eq]
      exact ⟨trivial, ih h2⟩
    · simp only [mapUpdate, if_neg hb, footersOk, List.all_cons, Bool.and_eq_true, beq_iff_eq]
      exact ⟨h1, ih h2⟩

theorem footersOk_eraseB (bs : List Block) (x : Nat) (h : footersOk bs = true) :
    footersOk (eraseB bs x) = true := by
  induction bs with
  | nil => rfl
  | cons b bs ih =>
    simp only [footersOk, List.all_cons, Bool.and_eq_true, beq_iff_eq] at h
    obtain ⟨h1, h2⟩ := h
    by_cases hb : b.addr = x
    · simp only [eraseB, if_pos hb]
      exact ih h2
    · simp only [eraseB, if_neg hb, footersOk, List.all_cons, Bool.and_eq_true, beq_iff_eq]
      exact ⟨h1, ih h2⟩

theorem footersOk_insertB (bs : List Block) (nb : Block) (hnb : nb.ftr = nb.size)
    (h : footersOk bs = true) :
    footersOk (insertB bs nb) = true := by
  induction bs with
  | nil =>
    simp only [insertB, footersOk, List.all_cons, List.all_nil, Bool.and_eq_true, beq_iff_eq]
    exact ⟨hnb, trivial⟩
  | cons b bs ih =>
    simp only [footersOk, List.all_cons, Bool.and_eq_true, beq_iff_eq] at h
    obtain ⟨h1, h2⟩ := h
    by_cases hlt : nb.addr < b.addr
    · simp only [insertB, if_pos hlt, footersOk, List.all_cons, Bool.and_eq_true, beq_iff_eq]
      refine ⟨hnb, h1, ?_⟩
      simpa [footersOk] using h2
    · simp only [insertB, if_neg hlt, footersOk, List.all_cons, Bool.and_eq_true, beq_iff_eq]
      exact ⟨h1, ih h2⟩

theorem footersOk_append_one (bs : List Block) (nb : Block) (hnb : nb.ftr = nb.size)
    (h : footersOk bs = true) :
    footersOk (bs ++ [nb]) = true := by
  induction bs with
  | nil =>
    simp only [List.nil_append, footersOk, List.all_cons, List.all_nil, Bool.and_eq_true,
               beq_iff_eq]
    exact ⟨hnb, trivial⟩
  | cons b bs ih =>
    simp only [footersOk, List.all_cons, Bool.and_eq_true, beq_iff_eq] at h
    obtain ⟨h1, h2⟩ := h
    simp only [List.cons_append, footersOk, List.all_cons, Bool.and_eq_true, beq_iff_eq]
    exact ⟨h1, ih h2⟩

theorem footersOk_remove (s : AllocState) (a : Nat) (s1 : AllocState)
    (h : remove_from_free_list s a = some s1) (hok : footersOk s.blocks = true) :
    footersOk s1.blocks = true := by
  rw [footersOk_congr s1.blocks s.blocks (remove_map_hmeta s a s1 h)]
  exact hok

theorem footersOk_add (s : AllocState) (a : Nat) (hok : footersOk s.blocks = true) :
    footersOk (add_to_free_list s a).blocks = true := by
  rw [footersOk_congr _ s.blocks (add_map_hmeta s a)]
  exact hok

theorem footersOk_coalesce_next (s : AllocState) (a : Nat) (s' : AllocState)
    (h : coalesce_next s a = some s') (hok : footersOk s.blocks = true) :
    footersOk s'.blocks = true := by
  unfold coalesce_next at h
  cases hl : lookupB s.blocks a with
  | none => rw [hl] at h; simp at h
  | some b =>
    rw [hl] at h
    dsimp only [] at h
    by_cases ht : a + HDR + b.size + FTR = s.heapTop
    · rw [if_pos ht] at h
      simp only [Option.some.injEq] at h
      rw [← h]; exact hok
    · rw [if_neg ht] at h
      cases hn : lookupB s.blocks (a + HDR + b.size + FTR) with
      | none => rw [hn] at h; simp at h
      | some nb =>
        rw [hn] at h
        dsimp only [] at h
        by_cases hf : nb.free = true
        · rw [if_pos hf] at h
          cases hr1 : remove_from_free_list s a with
          | none => rw [hr1] at h; simp at h
          | some s1 =>
            rw [hr1] at h
            dsimp only [] at h
            cases hr2 : remove_from_free_list s1 (a + HDR + b.size + FTR) with
            | none => rw [hr2] at h; simp at h
            | some s2 =>
              rw [hr2] at h
              dsimp only [] at h
              simp only [Option.some.injEq] at h
              rw [← h]
              apply footersOk_add
              show footersOk
                (mapUpdate (mapUpdate (eraseB s2.blocks (a + HDR + b.size + FTR)) a _) a
                  (fun x => { x with ftr := x.size })) = true
              apply footersOk_fix
              · exact fun x => rfl
              · apply footersOk_eraseB
                exact footersOk_remove s1 _ s2 hr2 (footersOk_remove s a s1 hr1 hok)
        · rw [if_neg hf] at h
          simp only [Option.some.injEq] at h
          rw [← h]; exact hok

theorem footersOk_coalesce_prev (s : AllocState) (a : Nat) (s' : AllocState)
    (h : coalesce_prev s a = some s') (hok : footersOk s.blocks = true) :
    footersOk s'.blocks = true := by
  unfold coalesce_prev at h
  by_cases hs : a = s.heapStart
  · rw [if_pos hs] at h
    simp only [Option.some.injEq] at h
    rw [← h]; exact hok
  · rw [if_neg hs] at h
    cases hfb : footerBefore s.blocks a with
    | none => rw [hfb] at h; simp at h
    | some p =>
      rw [hfb] at h
      dsimp only [] at h
      cases hpb : lookupB s.blocks (a - FTR - p.ftr - HDR) with
      | none => rw [hpb] at h; simp at h
      | some pb =>
        rw [hpb] at h
        cases hbb : lookupB s.blocks a with
        | none => rw [hbb] at h; simp at h
        | some b =>
          rw [hbb] at h
          dsimp only [] at h
          by_cases hf : pb.free = true
          · rw [if_pos hf] at h
            cases hr1 : remove_from_free_list s a with
            | none => rw [hr1] at h; simp at h
            | some s1 =>
              rw [hr1] at h
              dsimp only [] at h
              cases hr2 : remove_from_free_list s1 (a - FTR - p.ftr - HDR) with
              | none => rw [hr2] at h; simp at h
              | some s2 =>
                rw [hr2] at h
                dsimp only [] at h
                simp only [Option.some.injEq] at h
                rw [← h]
                apply footersOk_add
                show footersOk
                  (mapUpdate (mapUpdate (eraseB s2.blocks a) (a - FTR - p.ftr - HDR) _)
                    (a - FTR - p.ftr - HDR) (fun x => { x with ftr := x.size })) = true
                apply footersOk_fix
                · exact fun x => rfl
                · apply footersOk_eraseB
                  exact footersOk_remove s1 _ s2 hr2 (footersOk_remove s a s1 hr1 hok)
          · rw [if_neg hf] at h
            simp only [Option.some.injEq] at h
            rw [← h]; exact hok

theorem footersOk_coalesce (s : AllocState) (a : Nat) (s' : AllocState)
    (h : coalesce s a = some s') (hok : footersOk s.blocks = true) :
    footersOk s'.blocks = true := by
  unfold coalesce at h
  cases h1 : coalesce_next s a with
  | none => rw [h1] at h; simp at h
  | some s1 =>
    rw [h1] at h
    exact footersOk_coalesce_prev s1 a s' h (footersOk_coalesce_next s a s1 h1 hok)

theorem footersOk_split (s : AllocState) (a sz : Nat) (s' : AllocState)
    (h : split_block s a sz = some s') (hok : footersOk s.blocks = true) :
    footersOk s'.blocks = true := by
  unfold split_block at h
  cases hl : lookupB s.blocks a with
  | none => rw [hl] at h; simp at h
  | some b =>
    rw [hl] at h
    dsimp only [] at h
    by_cases hlo : b.size - sz < HDR + FTR + 8
    · rw [if_pos hlo] at h
      cases hr : remove_from_free_list s a with
      | none => rw [hr] at h; simp at h
      | some s1 =>
        rw [hr] at h
        dsimp only [] at h
        simp only [Option.some.injEq] at h
        rw [← h]
        show footersOk (mapUpdate s1.blocks a (fun x => { x with free := false })) = true
        rw [footersOk_congr _ s1.blocks
          (mapUpdate_map_congr hmeta (fun x => { x with free := false }) (fun x => rfl) _ _)]
        exact footersOk_remove s a s1 hr hok
    · rw [if_neg hlo] at h
      cases hr : remove_from_free_list s a with
      | none => rw [hr] at h; simp at h
      | some s1 =>
        rw [hr] at h
        dsimp only [] at h
        apply footersOk_coalesce_next _ _ _ h
        apply footersOk_add
        apply footersOk_insertB _ _ rfl
        show footersOk
          (mapUpdate (mapUpdate s1.blocks a _) a (fun x => { x with ftr := x.size })) = true
        apply footersOk_fix
        · exact fun x => rfl
        · exact footersOk_remove s a s1 hr hok

theorem footersOk_malloc (s : AllocState) (sz : Nat) (r : Option Nat) (s' : AllocState)
    (h : malloc s sz = some (r, s')) (hok : footersOk s.blocks = true) :
    footersOk s'.blocks = true := by
  unfold malloc at h
  by_cases h0 : sz = 0
  · rw [if_pos h0] at h
    simp only [Option.some.injEq, Prod.mk.injEq] at h
    rw [← h.2]; exact hok
  · rw [if_neg h0] at h
    dsimp only [] at h
    cases hf : find_free_block s (aligned_size sz) with
    | some a =>
      rw [hf] at h
      dsimp only [] at h
      cases hs : split_block s a (aligned_size sz) with
      | none => rw [hs] at h; simp at h
      | some s1 =>
        rw [hs] at h
        simp only [Option.some.injEq, Prod.mk.injEq] at h
        rw [← h.2]
        exact footersOk_split s a (aligned_size sz) s1 hs hok
    | none =>
      rw [hf] at h
      dsimp only [] at h
      by_cases hbk : s.heapTop + ((aligned_size sz + HDR + FTR) % W) ≤ s.limit
      · rw [if_pos hbk] at h
        simp only [Option.some.injEq, Prod.mk.injEq] at h
        rw [← h.2]
        exact footersOk_append_one s.blocks _ rfl hok
      · rw [if_neg hbk] at h
        simp only [Option.some.injEq, Prod.mk.injEq] at h
        rw [← h.2]; exact hok

theorem footersOk_free (s : AllocState) (p : Option Nat) (s' : AllocState)
    (h : free s p = some s') (hok : footersOk s.blocks = true) :
    footersOk s'.blocks = true := by
  unfold free at h
  cases p with
  | none =>
    simp only [Option.some.injEq] at h
    rw [← h]; exact hok
  | some ptr =>
    exact footersOk_coalesce _ _ _ h (footersOk_add s (ptr - HDR) hok)

theorem footersOk_calloc (s : AllocState) (num sz : Nat) (r : Option Nat) (s' : AllocState)
    (h : calloc s num sz = some (r, s')) (hok : footersOk s.blocks = true) :
    footersOk s'.blocks = true := by
  unfold calloc at h
  by_cases h0 : num = 0 ∨ sz = 0
  · rw [if_pos h0] at h
    simp only [Option.some.injEq, Prod.mk.injEq] at h
    rw [← h.2]; exact hok
  · rw [if_neg h0] at h
    by_cases hdiv : num * sz % W / num = sz
    · rw [if_pos hdiv] at h
      cases hm : malloc s (num * sz % W) with
      | none => rw [hm] at h; simp at h
      | some rs =>
        obtain ⟨r1, s1⟩ := rs
        cases r1 with
        | none =>
          rw [hm] at h
          simp only [Option.some.injEq, Prod.mk.injEq] at h
          rw [← h.2]
          exact footersOk_malloc s _ none s1 hm hok
        | some q =>
          rw [hm] at h
          simp only [Option.some.injEq, Prod.mk.injEq] at h
          rw [← h.2]
          show footersOk s1.blocks = true
          exact footersOk_malloc s _ (some q) s1 hm hok
    · rw [if_neg hdiv] at h
      simp only [Option.some.injEq, Prod.mk.injEq] at h
      rw [← h.2]; exact hok

theorem footersOk_realloc (s : AllocState) (p : Option Nat) (sz : Nat) (r : Option Nat)
    (s' : AllocState) (h : realloc s p sz = some (r, s')) (hok : footersOk s.blocks = true) :
    footersOk s'.blocks = true := by
  unfold realloc at h
  cases p with
  | none => exact footersOk_malloc s sz r s' h hok
  | some ptr =>
    dsimp only [] at h
    by_cases h0 : sz = 0
    · rw [if_pos h0] at h
      cases hfr : free s (some ptr) with
      | none => rw [hfr] at h; simp at h
      | some s1 =>
        rw [hfr] at h
        simp only [Option.some.injEq, Prod.mk.injEq] at h
        rw [← h.2]
        exact footersOk_free s (some ptr) s1 hfr hok
    · rw [if_neg h0] at h
      cases hb : lookupB s.blocks (ptr - HDR) with
      | none => rw [hb] at h; simp at h
      | some b =>
        rw [hb] at h
        dsimp only [] at h
        by_cases hle : aligned_size sz ≤ b.size
        · rw [if_pos hle] at h
          simp only [Option.some.injEq, Prod.mk.injEq] at h
          rw [← h.2]; exact hok
        · rw [if_neg hle] at h
          have hfall : ∀ (res : Option Nat × AllocState),
              (match malloc s sz with
               | none => none
               | some (none, s1) => some (none, s1)
               | some (some np, s1) =>
                 match free (memcpy s1 np ptr b.size) (some ptr) with
                 | none => none
                 | some s3 => some (some np, s3)) = some res →
              footersOk res.2.blocks = true := by
            intro res hres
            cases hm : malloc s sz with
            | none => rw [hm] at hres; simp at hres
            | some rs =>
              obtain ⟨r1, s1⟩ := rs
              cases r1 with
              | none =>
                rw [hm] at hres
                simp only [Option.some.injEq] at hres
                rw [← hres]
                exact footersOk_malloc s sz none s1 hm hok
              | some np =>
                rw [hm] at hres
                dsimp only [] at hres
                cases hfr : free (memcpy s1 np ptr b.size) (some ptr) with
                | none => rw [hfr] at hres; simp at hres
                | some s3 =>
                  rw [hfr] at hres
                  simp only [Option.some.injEq] at hres
                  rw [← hres]
                  apply footersOk_free _ _ _ hfr
                  show footersOk s1.blocks = true
                  exact footersOk_malloc s sz (some np) s1 hm hok
          by_cases hlt : (ptr - HDR) + HDR + b.size + FTR < s.heapTop
          · rw [if_pos hlt] at h
            cases hn : lookupB s.blocks ((ptr - HDR) + HDR + b.size + FTR) with
            | none => rw [hn] at h; simp at h
            | some nb =>
              rw [hn] at h
              dsimp only [] at h
              by_cases hf : nb.free = true
              · rw [if_pos hf] at h
                by_cases hc : aligned_size sz ≤ b.size + HDR + nb.size + FTR
                · rw [if_pos hc] at h
                  cases hr : remove_from_free_list s ((ptr - HDR) + HDR + b.size + FTR) with
                  | none => rw [hr] at h; simp at h
                  | some s1 =>
                    rw [hr] at h
                    dsimp only [] at h
                    simp only [Option.some.injEq, Prod.mk.injEq] at h
                    rw [← h.2]
                    show footersOk
                      (mapUpdate (mapUpdate (eraseB s1.blocks _) (ptr - HDR) _) (ptr - HDR)
                        (fun x => { x with ftr := x.size })) = true
                    apply footersOk_fix
                    · exact fun x => rfl
                    · apply footersOk_eraseB
                      exact footersOk_remove s _ s1 hr hok
                · rw [if_neg hc] at h
                  have := hfall (r, s') h
                  exact this
              · rw [if_neg hf] at h
                exact hfall (r, s') h
          · rw [if_neg hlt] at h
            exact hfall (r, s') h

theorem hmeta4_fields (b1 : Block) (t : Nat × Nat × Nat × Bool) (h : hmeta4 b1 = t) :
    b1.addr = t.1 ∧ b1.size = t.2.1 ∧ b1.ftr = t.2.2.1 ∧ b1.free = t.2.2.2 := by
  subst h
  exact ⟨rfl, rfl, rfl, rfl⟩

theorem add_freeHead (s : AllocState) (a : Nat) :
    (add_to_free_list s a).freeHead = some a := by
  unfold add_to_free_list
  cases s.freeHead <;> rfl

theorem add_blocks_length (s : AllocState) (a : Nat) :
    (add_to_free_list s a).blocks.length = s.blocks.length := by
  unfold add_to_free_list
  cases s.freeHead with
  | none =>
    show (mapUpdate s.blocks a _).length = _
    rw [mapUpdate_length]
  | some h =>
    show (mapUpdate (mapUpdate s.blocks a _) h _).length = _
    rw [mapUpdate_length, mapUpdate_length]

theorem add_lookup_ne (s : AllocState) (a x : Nat) (hx : x ≠ a) :
    (lookupB (add_to_free_list s a).blocks x).map hmeta4 =
      (lookupB s.blocks x).map hmeta4 := by
  unfold add_to_free_list
  cases hh : s.freeHead with
  | none =>
    show (lookupB (mapUpdate s.blocks a
      (fun b => { b with free := true, next := none, prev := none })) x).map hmeta4 = _
    rw [lookupB_mapUpdate_ne s.blocks a x
      (fun b => { b with free := true, next := none, prev := none }) (fun b => rfl) hx]
  | some h =>
    show (lookupB (mapUpdate (mapUpdate s.blocks a
        (fun b => { b with free := true, prev := none, next := some h })) h
        (fun b => { b with prev := some a })) x).map hmeta4 = _
    rw [lookupB_map_congr hmeta4 hmeta4_addr _ _
        (mapUpdate_map_congr hmeta4 (fun b => { b with prev := some a }) (fun b => rfl)
          (mapUpdate s.blocks a
            (fun b => { b with free := true, prev := none, next := some h })) h) x,
        lookupB_mapUpdate_ne s.blocks a x
          (fun b => { b with free := true, prev := none, next := some h }) (fun b => rfl) hx]

theorem add_lookup_self_hmeta4 (s : AllocState) (a : Nat) :
    (lookupB (add_to_free_list s a).blocks a).map hmeta4 =
      (lookupB s.blocks a).map (fun x => (x.addr, x.size, x.ftr, true)) := by
  unfold add_to_free_list
  cases hh : s.freeHead with
  | none =>
    show (lookupB (mapUpdate s.blocks a
      (fun b => { b with free := true, next := none, prev := none })) a).map hmeta4 = _
    rw [lookupB_mapUpdate_self s.blocks a
      (fun b => { b with free := true, next := none, prev := none }) (fun b => rfl)]
    cases lookupB s.blocks a <;> rfl
  | some h =>
    show (lookupB (mapUpdate (mapUpdate s.blocks a
        (fun b => { b with free := true, prev := none, next := some h })) h
        (fun b => { b with prev := some a })) a).map hmeta4 = _
    rw [lookupB_map_congr hmeta4 hmeta4_addr _ _
        (mapUpdate_map_congr hmeta4 (fun b => { b with prev := some a }) (fun b => rfl)
          (mapUpdate s.blocks a
            (fun b => { b with free := true, prev := none, next := some h })) h) a,
        lookupB_mapUpdate_self s.blocks a
          (fun b => { b with free := true, prev := none, next := some h }) (fun b => rfl)]
    cases lookupB s.blocks a <;> rfl

/- ----------------------------- Claims ----------------------------- -/

/-- C10: calling remove_from_free_list on a block whose address the
    free-list traversal never meets (the block is not a member of the
    list) is a silent no-op: the state is returned entirely unchanged —
    free list, links and free flag included — and neither the corruption
    check nor the abort is reached. -/
theorem C10_remove_nonmember_is_noop (s : AllocState) (a : Nat)
    (h : chainFind s (s.blocks.length + 1) s.freeHead a = some false) :
    remove_from_free_list s a = some s :=
  remove_aux_of_not_found s a _ _ h

/-- Witness for C10 at a concrete heap: address 999 is not in the free
    list of oneFreeS, and removal returns the state unchanged. -/
theorem C10_remove_nonmember_is_noop_witness :
    chainFind oneFreeS (oneFreeS.blocks.length + 1) oneFreeS.freeHead 999 = some false ∧
    remove_from_free_list oneFreeS 999 = some oneFreeS :=
  ⟨by decide, C10_remove_nonmember_is_noop oneFreeS 999 (by decide)⟩

/-- C3: on a fresh heap, a = allocate(16); release(a); b = allocate(16)
    returns the same pointer (payload address 32 both times), the freed
    block being found at the head of the free list by first-fit and
    reused in full: the final heap still holds the single block of
    payload 16 at address 0, now allocated, and the heap top (56) shows
    no further heap extension took place. -/
theorem C3_basic_reuse :
    reuseTrace = some (some 32, some 32, [(0, 16, false)], 56) := by rfl

/-- C5: zero_allocate returns null with the allocator state untouched
    whenever count = 0, or elem_size = 0, or the true product
    count * elem_size exceeds the 64-bit size_t range (the wrapped
    product then fails the reverse-division check). -/
theorem C5_zero_allocate_guard (s : AllocState) (num sz : Nat)
    (h : num = 0 ∨ sz = 0 ∨ W ≤ num * sz) :
    calloc s num sz = some (none, s) := by
  unfold calloc
  by_cases h0 : num = 0 ∨ sz = 0
  · rw [if_pos h0]
  · rw [if_neg h0]
    push_neg at h0
    have hov : W ≤ num * sz := by
      rcases h with h | h | h
      · exact absurd h h0.1
      · exact absurd h h0.2
      · exact h
    have hnum : 0 < num := Nat.pos_of_ne_zero h0.1
    have hW : 0 < W := pow_pos (by norm_num) 64
    have h1 : num * sz % W < num * sz := lt_of_lt_of_le (Nat.mod_lt _ hW) hov
    have h2 : num * sz % W / num < sz := by
      rw [Nat.div_lt_iff_lt_mul hnum]
      calc num * sz % W < num * sz := h1
        _ = sz * num := Nat.mul_comm _ _
    rw [if_neg (Nat.ne_of_lt h2)]

/-- Witness for C5: 2^32 * 2^32 = 2^64 overflows size_t, so
    zero_allocate fails and the fresh heap is unchanged. -/
theorem C5_zero_allocate_guard_witness :
    ((2 ^ 32 = 0 ∨ (2 ^ 32 : Nat) = 0 ∨ W ≤ 2 ^ 32 * 2 ^ 32) ∧
      calloc initialState (2 ^ 32) (2 ^ 32) = some (none, initialState)) :=
  ⟨Or.inr (Or.inr (by decide)),
   C5_zero_allocate_guard initialState (2 ^ 32) (2 ^ 32) (Or.inr (Or.inr (by decide)))⟩

/-- C8: for every heap in which each block's header size equals its
    footer size, the completion of any public operation — allocate,
    zero_allocate, release or resize — preserves that agreement for
    every block, free or allocated. -/
theorem C8_header_footer_sizes_agree (s : AllocState) (op : AllocOp) (r : Option Nat)
    (s' : AllocState) (hok : footersOk s.blocks = true) (hstep : step s op = some (r, s')) :
    footersOk s'.blocks = true := by
  cases op with
  | alloc n => exact footersOk_malloc s n r s' hstep hok
  | zalloc n m => exact footersOk_calloc s n m r s' hstep hok
  | release p =>
    unfold step at hstep
    dsimp only [] at hstep
    cases hfr : free s p with
    | none => rw [hfr] at hstep; simp at hstep
    | some s1 =>
      rw [hfr] at hstep
      simp only [Option.some.injEq, Prod.mk.injEq] at hstep
      rw [← hstep.2]
      exact footersOk_free s p s1 hfr hok
  | resize p n => exact footersOk_realloc s p n r s' hstep hok

/-- Witness for C8: allocate(16) on the fresh heap yields afterAlloc16S,
    whose single block has matching header and footer sizes. -/
theorem C8_header_footer_sizes_agree_witness :
    footersOk initialState.blocks = true ∧
    step initialState (AllocOp.alloc 16) = some (some 32, afterAlloc16S) ∧
    footersOk afterAlloc16S.blocks = true :=
  ⟨by decide, rfl,
   C8_header_footer_sizes_agree initialState (AllocOp.alloc 16) (some 32) afterAlloc16S
     (by decide) rfl⟩

/-- C6: when the free-list traversal of remove_from_free_list reaches the
    requested block and the doubly-linked invariant fails at either
    neighbour — next is non-null with next.prev not pointing back, or
    prev is non-null with prev.next not pointing back — the call aborts
    (reporting corruption), and no unlink write is performed: the result
    is the fatal `none`, never a successor state. -/
theorem C6_remove_corruption_aborts (s : AllocState) (a : Nat) (b : Block)
    (hfind : chainFind s (s.blocks.length + 1) s.freeHead a = some true)
    (hb : lookupB s.blocks a = some b)
    (hviol :
      (∃ n nb, b.next = some n ∧ n ≠ a ∧ lookupB s.blocks n = some nb ∧ nb.prev ≠ some a) ∨
      (∃ q qb, b.prev = some q ∧ q ≠ a ∧ lookupB s.blocks q = some qb ∧ qb.next ≠ some a)) :
    remove_from_free_list s a = none := by
  show remove_aux s a (s.blocks.length + 1) s.freeHead = none
  rw [remove_aux_of_found s a _ _ hfind, hb]
  dsimp only []
  rcases hviol with ⟨n, nb, hnx, hna, hlnb, hnp⟩ | ⟨q, qb, hqx, hqa, hlqb, hqn⟩
  · have hnc : nextCheckOk (removePrep s a b) a b = none := by
      unfold nextCheckOk
      rw [hnx]
      dsimp only []
      rw [removePrep_blocks,
          lookupB_mapUpdate_ne s.blocks a n (fun x => { x with free := false })
            (fun x => rfl) hna, hlnb]
      dsimp only []
      rw [if_neg hnp]
    unfold removeFound
    rw [hnc]
  · cases hnc : nextCheckOk (removePrep s a b) a b with
    | none =>
      unfold removeFound
      rw [hnc]
    | some u =>
      have hpc : prevCheckOk (removePrep s a b) a b = none := by
        unfold prevCheckOk
        rw [hqx]
        dsimp only []
        rw [removePrep_blocks,
            lookupB_mapUpdate_ne s.blocks a q (fun x => { x with free := false })
              (fun x => rfl) hqa, hlqb]
        dsimp only []
        rw [if_neg hqn]
      unfold removeFound
      rw [hnc, hpc]

/-- Witness for C6: in corruptS the head block's next neighbour (at 56)
    has prev = 999 instead of 0, so removing the head block aborts. -/
theorem C6_remove_corruption_aborts_witness :
    chainFind corruptS (corruptS.blocks.length + 1) corruptS.freeHead 0 = some true ∧
    lookupB corruptS.blocks 0 = some ⟨0, 16, 16, true, some 56, none⟩ ∧
    remove_from_free_list corruptS 0 = none :=
  ⟨by decide, by decide,
   C6_remove_corruption_aborts corruptS 0 ⟨0, 16, 16, true, some 56, none⟩ (by decide) (by decide)
     (Or.inl ⟨56, ⟨56, 16, 16, true, none, some 999⟩, rfl, by decide, by decide, by decide⟩)⟩

set_option maxHeartbeats 2000000 in
/-- C2: coalescing of adjacent blocks, for arbitrary payload sizes.
    (1) Releasing two physically adjacent allocated blocks of sizes x, y
    in either order — whether they fill the whole heap (pairState) or
    sit between two other allocated blocks of arbitrary sizes w, v
    (ctxPairState) — merges them into a single free block of payload
    x + y + 40: the two payloads plus one header + footer (32 + 8) of
    overhead, with any surrounding blocks untouched. (2) Releasing three
    consecutive allocated blocks of sizes x, y, z in any of the six
    orders — in the bare heap (triState) or between allocated
    neighbours (ctxTriState) — leaves a single free block of payload
    x + y + z + 80 spanning all three. -/
theorem C2_coalescing_of_adjacent_blocks (w x y z v : Nat) :
    ((free2 (pairState x y) (some 32) (some (x + 72))).map blocksTag =
        some [(0, x + y + 40, true)] ∧
     (free2 (pairState x y) (some (x + 72)) (some 32)).map blocksTag =
        some [(0, x + y + 40, true)]) ∧
    ((free3 (triState x y z) (some 32) (some (x + 72)) (some (x + y + 112))).map blocksTag =
        some [(0, x + y + z + 80, true)] ∧
     (free3 (triState x y z) (some 32) (some (x + y + 112)) (some (x + 72))).map blocksTag =
        some [(0, x + y + z + 80, true)] ∧
     (free3 (triState x y z) (some (x + 72)) (some 32) (some (x + y + 112))).map blocksTag =
        some [(0, x + y + z + 80, true)] ∧
     (free3 (triState x y z) (some (x + 72)) (some (x + y + 112)) (some 32)).map blocksTag =
        some [(0, x + y + z + 80, true)] ∧
     (free3 (triState x y z) (some (x + y + 112)) (some 32) (some (x + 72))).map blocksTag =
        some [(0, x + y + z + 80, true)] ∧
     (free3 (triState x y z) (some (x + y + 112)) (some (x + 72)) (some 32)).map blocksTag =
        some [(0, x + y + z + 80, true)]) ∧
    ((free2 (ctxPairState w x y v) (some (w + 72)) (some (w + x + 112))).map blocksTag =
        some [(0, w, false), (w + 40, x + y + 40, true), (w + x + y + 120, v, false)] ∧
     (free2 (ctxPairState w x y v) (some (w + x + 112)) (some (w + 72))).map blocksTag =
        some [(0, w, false), (w + 40, x + y + 40, true), (w + x + y + 120, v, false)]) ∧
    ((free3 (ctxTriState w x y z v) (some (w + 72)) (some (w + x + 112)) (some (w + x + y + 152))).map blocksTag =
        some [(0, w, false), (w + 40, x + y + z + 80, true), (w + x + y + z + 160, v, false)] ∧
     (free3 (ctxTriState w x y z v) (some (w + 72)) (some (w + x + y + 152)) (some (w + x + 112))).map blocksTag =
        some [(0, w, false), (w + 40, x + y + z + 80, true), (w + x + y + z + 160, v, false)] ∧
     (free3 (ctxTriState w x y z v) (some (w + x + 112)) (some (w + 72)) (some (w + x + y + 152))).map blocksTag =
        some [(0, w, false), (w + 40, x + y + z + 80, true), (w + x + y + z + 160, v, false)] ∧
     (free3 (ctxTriState w x y z v) (some (w + x + 112)) (some (w + x + y + 152)) (some (w + 72))).map blocksTag =
        some [(0, w, false), (w + 40, x + y + z + 80, true), (w + x + y + z + 160, v, false)] ∧
     (free3 (ctxTriState w x y z v) (some (w + x + y + 152)) (some (w + 72)) (some (w + x + 112))).map blocksTag =
        some [(0, w, false), (w + 40, x + y + z + 80, true), (w + x + y + z + 160, v, false)] ∧
     (free3 (ctxTriState w x y z v) (some (w + x + y + 152)) (some (w + x + 112)) (some (w + 72))).map blocksTag =
        some [(0, w, false), (w + 40, x + y + z + 80, true), (w + x + y + z + 160, v, false)]) := by
  have e1 : ∀ a b : Nat, a + b + 72 - b - 32 = a + 40 := fun a b => by omega
  have e2 : ∀ a b : Nat, a + b + 72 - (a + b + 40) - 32 = 0 := fun a b => by omega
  have e3 : ∀ a b c : Nat, a + b + c + 112 - c - 32 = a + b + 80 := fun a b c => by omega
  have e4 : ∀ a b c : Nat, a + b + c + 112 - (b + c + 40) - 32 = a + 40 := fun a b c => by omega
  have e5 : ∀ a b c d : Nat, a + b + c + d + 152 - d - 32 = a + b + c + 120 :=
    fun a b c d => by omega
  have e6 : ∀ a b c d : Nat, a + b + c + d + 152 - (c + d + 40) - 32 = a + b + 80 :=
    fun a b c d => by omega
  have e7 : ∀ a b c d : Nat, a + b + c + d + 152 - (b + c + d + 80) - 32 = a + 40 :=
    fun a b c d => by omega
  have e8 : ∀ a b c : Nat, a + b + c + 72 - (b + c) - 32 = a + 40 := fun a b c => by omega
  refine ⟨⟨?_, ?_⟩, ⟨?_, ?_, ?_, ?_, ?_, ?_⟩, ⟨?_, ?_⟩, ?_, ?_, ?_, ?_, ?_, ?_⟩ <;>
    simp +arith [e1, e2, e3, e4, e5, e6, e7, e8, free3, free2, free, pairState, triState,
      ctxPairState, ctxTriState, blocksTag, coalesce, coalesce_next, coalesce_prev,
      add_to_free_list, remove_from_free_list, remove_aux, removeFound, removePrep,
      nextCheckOk, prevCheckOk, unlinkWrites, lookupB, mapUpdate, eraseB, setBlockF,
      set_footer, footerBefore, HDR, FTR]

/-- C4: for every size_t-representable new_size, when resize must grow
    (aligned new size exceeds the block's payload), in-place absorption
    is impossible (no in-range free right neighbour large enough) and
    the fallback allocation fails (no free block fits, and the break
    cannot grow by the size_t request full + header + footer), realloc
    returns null and the allocator state — the original block, the free
    list, every byte of memory — is exactly unchanged. -/
theorem C4_resize_failure_leaves_state_unchanged (s : AllocState) (ptr n : Nat) (b : Block)
    (hn : n ≠ 0)
    (hW : n < W)
    (hb : lookupB s.blocks (ptr - HDR) = some b)
    (hgrow : b.size < aligned_size n)
    (hinplace :
      s.heapTop ≤ (ptr - HDR) + HDR + b.size + FTR ∨
      (∃ nb, lookupB s.blocks ((ptr - HDR) + HDR + b.size + FTR) = some nb ∧
             (nb.free = false ∨ b.size + HDR + nb.size + FTR < aligned_size n)))
    (hnofit : find_free_block s (aligned_size n) = none)
    (hsbrk : s.limit < s.heapTop + ((aligned_size n + HDR + FTR) % W)) :
    realloc s (some ptr) n = some (none, s) := by
  have hmal : malloc s n = some (none, s) := by
    unfold malloc
    rw [if_neg hn]
    dsimp only []
    rw [hnofit, if_neg (by omega)]
  unfold realloc
  dsimp only []
  rw [if_neg hn, hb]
  dsimp only []
  rw [if_neg (Nat.not_le.mpr hgrow)]
  rcases hinplace with htop | ⟨nb, hnb, hcase⟩
  · rw [if_neg (Nat.not_lt.mpr htop), hmal]
  · by_cases hlt : (ptr - HDR) + HDR + b.size + FTR < s.heapTop
    · rw [if_pos hlt, hnb]
      dsimp only []
      by_cases hfree : nb.free = true
      · rw [if_pos hfree]
        rcases hcase with hf | hcomb
        · rw [hf] at hfree; simp at hfree
        · rw [if_neg (Nat.not_le.mpr hcomb), hmal]
      · rw [if_neg hfree, hmal]
    · rw [if_neg hlt, hmal]

/-- Witness for C4: on the full heap, resize of the only block (payload
    16 at pointer 32) to 24 bytes cannot grow in place and cannot
    allocate; realloc returns null with the state untouched. -/
theorem C4_resize_failure_leaves_state_unchanged_witness :
    lookupB fullHeapS.blocks (32 - HDR) = some ⟨0, 16, 16, false, none, none⟩ ∧
    (⟨0, 16, 16, false, none, none⟩ : Block).size < aligned_size 24 ∧
    fullHeapS.heapTop ≤ (32 - HDR) + HDR + 16 + FTR ∧
    find_free_block fullHeapS (aligned_size 24) = none ∧
    (24 : Nat) < W ∧
    fullHeapS.limit < fullHeapS.heapTop + ((aligned_size 24 + HDR + FTR) % W) ∧
    realloc fullHeapS (some 32) 24 = some (none, fullHeapS) :=
  ⟨by decide, by decide, by decide, by decide, by decide, by decide,
   C4_resize_failure_leaves_state_unchanged fullHeapS 32 24 ⟨0, 16, 16, false, none, none⟩
     (by decide) (by decide) (by decide) (by decide) (Or.inl (by decide)) (by decide)
     (by decide)⟩

theorem hmeta_fields (b1 b2 : Block) (h : hmeta b1 = hmeta b2) :
    b1.addr = b2.addr ∧ b1.size = b2.size ∧ b1.ftr = b2.ftr := by
  simp only [hmeta, Prod.mk.injEq] at h
  exact h

/-- C9: when resize grows in place by absorbing the free right neighbour,
    the block's new payload size is exactly old_size + header + footer +
    neighbour_size — the whole neighbour is absorbed even when that
    strictly exceeds the aligned request — the neighbour's record is
    gone, the footer is rewritten to match, the same pointer is returned,
    no remainder block is created and nothing is pushed on the free list
    (its head is whatever the neighbour's removal left). -/
theorem C9_resize_absorbs_whole_neighbor (s s1 : AllocState) (ptr n : Nat) (b nb : Block)
    (hn : n ≠ 0)
    (hb : lookupB s.blocks (ptr - HDR) = some b)
    (hgrow : b.size < aligned_size n)
    (hlt : (ptr - HDR) + HDR + b.size + FTR < s.heapTop)
    (hnb : lookupB s.blocks ((ptr - HDR) + HDR + b.size + FTR) = some nb)
    (hfree : nb.free = true)
    (hcomb : aligned_size n ≤ b.size + HDR + nb.size + FTR)
    (hrem : remove_from_free_list s ((ptr - HDR) + HDR + b.size + FTR) = some s1) :
    ∃ s2, realloc s (some ptr) n = some (some ptr, s2) ∧
      (∃ b1, lookupB s2.blocks (ptr - HDR) = some b1 ∧
         b1.size = b.size + HDR + nb.size + FTR ∧ b1.ftr = b1.size) ∧
      lookupB s2.blocks ((ptr - HDR) + HDR + b.size + FTR) = none ∧
      s2.freeHead = s1.freeHead ∧
      s2.blocks.length ≤ s1.blocks.length := by
  have hne : (ptr - HDR) + HDR + b.size + FTR ≠ ptr - HDR := by
    simp only [HDR, FTR]; omega
  have hne2 : (ptr - HDR) ≠ (ptr - HDR) + HDR + b.size + FTR := by
    simp only [HDR, FTR]; omega
  have hreal : realloc s (some ptr) n =
      some (some ptr,
        set_footer
          (setBlockF { s1 with blocks := eraseB s1.blocks ((ptr - HDR) + HDR + b.size + FTR) }
            (ptr - HDR)
            (fun x => { x with size := b.size + HDR + nb.size + FTR })) (ptr - HDR)) := by
    unfold realloc
    dsimp only []
    rw [if_neg hn, hb]
    dsimp only []
    rw [if_neg (Nat.not_le.mpr hgrow), if_pos hlt, hnb]
    dsimp only []
    rw [if_pos hfree, if_pos hcomb, hrem]
  refine ⟨_, hreal, ?_, ?_, ?_, ?_⟩
  · -- the grown block at ptr - HDR
    have hs1 : (lookupB s1.blocks (ptr - HDR)).map hmeta =
        (lookupB s.blocks (ptr - HDR)).map hmeta :=
      lookupB_map_congr hmeta hmeta_addr s1.blocks s.blocks
        (remove_map_hmeta s _ s1 hrem) (ptr - HDR)
    rw [hb] at hs1
    cases he : lookupB s1.blocks (ptr - HDR) with
    | none => rw [he] at hs1; simp at hs1
    | some b1p =>
      rw [he] at hs1
      simp only [Option.map_some'] at hs1
      show ∃ b1, lookupB
        (mapUpdate (mapUpdate (eraseB s1.blocks ((ptr - HDR) + HDR + b.size + FTR))
          (ptr - HDR) (fun x => { x with size := b.size + HDR + nb.size + FTR }))
          (ptr - HDR) (fun x => { x with ftr := x.size })) (ptr - HDR) = some b1 ∧ _
      rw [lookupB_mapUpdate_self _ _ (fun x => { x with ftr := x.size }) (fun x => rfl),
          lookupB_mapUpdate_self _ _
            (fun x => { x with size := b.size + HDR + nb.size + FTR }) (fun x => rfl),
          lookupB_eraseB_ne _ _ _ hne2, he]
      exact ⟨_, rfl, rfl, rfl⟩
  · -- the absorbed neighbour's record is gone
    show lookupB
      (mapUpdate (mapUpdate (eraseB s1.blocks ((ptr - HDR) + HDR + b.size + FTR))
        (ptr - HDR) (fun x => { x with size := b.size + HDR + nb.size + FTR }))
        (ptr - HDR) (fun x => { x with ftr := x.size })) ((ptr - HDR) + HDR + b.size + FTR)
      = none
    rw [lookupB_mapUpdate_ne _ _ _ (fun x => { x with ftr := x.size }) (fun x => rfl) hne,
        lookupB_mapUpdate_ne _ _ _
          (fun x => { x with size := b.size + HDR + nb.size + FTR }) (fun x => rfl) hne,
        lookupB_eraseB_self]
  · rfl
  · show (mapUpdate (mapUpdate (eraseB s1.blocks _) _ _) _ _).length ≤ s1.blocks.length
    rw [mapUpdate_length, mapUpdate_length]
    exact eraseB_length_le _ _

/-- Witness for C9: growing the 16-byte block at pointer 32 to 24 bytes
    absorbs the whole 64-byte free neighbour: the block becomes
    16 + 32 + 64 + 8 = 120 bytes, far beyond the 24 requested. -/
theorem C9_resize_absorbs_whole_neighbor_witness :
    lookupB growableS.blocks (32 - HDR) = some ⟨0, 16, 16, false, none, none⟩ ∧
    remove_from_free_list growableS ((32 - HDR) + HDR + 16 + FTR) = some growableS1 ∧
    (∃ s2, realloc growableS (some 32) 24 = some (some 32, s2) ∧
      (∃ b1, lookupB s2.blocks (32 - HDR) = some b1 ∧
         b1.size = 16 + HDR + 64 + FTR ∧ b1.ftr = b1.size) ∧
      lookupB s2.blocks ((32 - HDR) + HDR + 16 + FTR) = none ∧
      s2.freeHead = growableS1.freeHead ∧
      s2.blocks.length ≤ growableS1.blocks.length) :=
  ⟨by decide, by rfl,
   C9_resize_absorbs_whole_neighbor growableS growableS1 32 24
     ⟨0, 16, 16, false, none, none⟩ ⟨56, 64, 64, true, none, none⟩
     (by decide) (by decide) (by decide) (by decide) (by decide) (by decide) (by decide)
     (by rfl)⟩

theorem lookup_fields_of_hmeta4 (o : Option Block) (w x y : Nat) (z : Bool)
    (h : o.map hmeta4 = some (w, x, y, z)) :
    ∃ b1, o = some b1 ∧ b1.size = x ∧ b1.ftr = y ∧ b1.free = z := by
  cases o with
  | none => simp at h
  | some c =>
    simp only [Option.map_some', Option.some.injEq] at h
    obtain ⟨h1, h2, h3, h4⟩ := hmeta4_fields c (w, x, y, z) h
    exact ⟨c, rfl, h2, h3, h4⟩

/-- C7: split_block on a free block with requested_size ≤ payload size.
    If the leftover (block.size − requested_size) is under one header +
    footer + 8 usable bytes, the block is removed from the free list
    (free flag cleared, list head as the removal left it) and stays at
    its original full size — no remainder record is created. Otherwise
    the block is shrunk to requested_size with footer rewritten and
    marked allocated, a remainder block of payload
    (block.size − requested_size) − header − footer is carved right
    after it, marked free, pushed at the head of the free list, and the
    result is a forward coalesce attempt on that remainder. -/
theorem C7_split_threshold_dichotomy (s s1 : AllocState) (a sz : Nat) (b : Block)
    (hb : lookupB s.blocks a = some b)
    (hfree : b.free = true)
    (hsz : sz ≤ b.size)
    (hrem : remove_from_free_list s a = some s1)
    (hnew : lookupB s.blocks (a + HDR + sz + FTR) = none) :
    (b.size - sz < HDR + FTR + 8 →
      ∃ s2, split_block s a sz = some s2 ∧
        (∃ b1, lookupB s2.blocks a = some b1 ∧ b1.size = b.size ∧ b1.free = false) ∧
        s2.blocks.length = s.blocks.length ∧
        s2.freeHead = s1.freeHead) ∧
    (HDR + FTR + 8 ≤ b.size - sz →
      ∃ sInt, split_block s a sz = coalesce_next sInt (a + HDR + sz + FTR) ∧
        (∃ b1, lookupB sInt.blocks a = some b1 ∧
           b1.size = sz ∧ b1.ftr = sz ∧ b1.free = false) ∧
        (∃ r1, lookupB sInt.blocks (a + HDR + sz + FTR) = some r1 ∧
           r1.size = b.size - sz - HDR - FTR ∧ r1.ftr = b.size - sz - HDR - FTR ∧
           r1.free = true) ∧
        sInt.freeHead = some (a + HDR + sz + FTR) ∧
        sInt.blocks.length = s.blocks.length + 1) := by
  have hlen1 : s1.blocks.length = s.blocks.length := by
    have := congrArg List.length (remove_map_hmeta s a s1 hrem)
    simpa using this
  have hs1a : (lookupB s1.blocks a).map hmeta = some (hmeta b) := by
    have := lookupB_map_congr hmeta hmeta_addr s1.blocks s.blocks
      (remove_map_hmeta s a s1 hrem) a
    rw [hb] at this
    simpa using this
  have hs1n : lookupB s1.blocks (a + HDR + sz + FTR) = none := by
    have := lookupB_map_congr hmeta hmeta_addr s1.blocks s.blocks
      (remove_map_hmeta s a s1 hrem) (a + HDR + sz + FTR)
    rw [hnew] at this
    cases e : lookupB s1.blocks (a + HDR + sz + FTR) with
    | none => rfl
    | some c => rw [e] at this; simp at this
  obtain ⟨b1p, he⟩ : ∃ b1p, lookupB s1.blocks a = some b1p := by
    cases e : lookupB s1.blocks a with
    | none => rw [e] at hs1a; simp at hs1a
    | some c => exact ⟨c, rfl⟩
  rw [he] at hs1a
  simp only [Option.map_some', Option.some.injEq] at hs1a
  obtain ⟨haddr1, hsz1, hftr1⟩ := hmeta_fields b1p b hs1a
  have hna : a + HDR + sz + FTR ≠ a := by simp only [HDR, FTR]; omega
  have han : a ≠ a + HDR + sz + FTR := fun h => hna h.symm
  constructor
  · intro hc1
    have heq : split_block s a sz =
        some (setBlockF s1 a (fun x => { x with free := false })) := by
      unfold split_block
      rw [hb]
      dsimp only []
      rw [if_pos hc1, hrem]
    refine ⟨_, heq, ?_, ?_, ?_⟩
    · show ∃ b1, lookupB (mapUpdate s1.blocks a (fun x => { x with free := false })) a
        = some b1 ∧ b1.size = b.size ∧ b1.free = false
      rw [lookupB_mapUpdate_self s1.blocks a (fun x => { x with free := false })
        (fun x => rfl), he]
      exact ⟨_, rfl, hsz1, rfl⟩
    · show (mapUpdate s1.blocks a (fun x => { x with free := false })).length = s.blocks.length
      rw [mapUpdate_length, hlen1]
    · rfl
  · intro hc2
    have heq : split_block s a sz =
        coalesce_next
          (add_to_free_list
            { set_footer (setBlockF s1 a (fun x => { x with size := sz, free := false })) a with
              blocks := insertB
                (set_footer (setBlockF s1 a
                  (fun x => { x with size := sz, free := false })) a).blocks
                { addr := a + HDR + sz + FTR, size := b.size - sz - HDR - FTR,
                  ftr := b.size - sz - HDR - FTR, free := true, next := none, prev := none } }
            (a + HDR + sz + FTR))
          (a + HDR + sz + FTR) := by
      unfold split_block
      rw [hb]
      dsimp only []
      rw [if_neg (Nat.not_lt.mpr hc2), hrem]
    refine ⟨_, heq, ?_, ?_, ?_, ?_⟩
    · apply lookup_fields_of_hmeta4
      rw [add_lookup_ne _ (a + HDR + sz + FTR) a han]
      simp only [set_footer, setBlockF]
      rw [lookupB_insertB_ne _ _ a han,
          lookupB_mapUpdate_self
            (mapUpdate s1.blocks a (fun x => { x with size := sz, free := false })) a
            (fun x => { x with ftr := x.size }) (fun x => rfl),
          lookupB_mapUpdate_self s1.blocks a
            (fun x => { x with size := sz, free := false }) (fun x => rfl),
          he]
      rfl
    · apply lookup_fields_of_hmeta4
      rw [add_lookup_self_hmeta4]
      simp only [set_footer, setBlockF]
      have hnone : lookupB (mapUpdate (mapUpdate s1.blocks a
          (fun x => { x with size := sz, free := false })) a
          (fun x => { x with ftr := x.size })) (a + HDR + sz + FTR) = none := by
        rw [lookupB_mapUpdate_ne _ a _ (fun x => { x with ftr := x.size })
              (fun x => rfl) hna,
            lookupB_mapUpdate_ne s1.blocks a _
              (fun x => { x with size := sz, free := false }) (fun x => rfl) hna,
            hs1n]
      rw [lookupB_insertB_self _ _ hnone]
      rfl
    · exact add_freeHead _ _
    · rw [add_blocks_length]
      simp only [set_footer, setBlockF]
      rw [insertB_length, mapUpdate_length, mapUpdate_length, hlen1]

/-- Witness for C7 in the split case: the free 80-byte block at the head
    of splitDemoS split for request 16 leaves a 16-byte allocated block
    and carves a free remainder of 80 − 16 − 40 = 24 payload bytes. -/
theorem C7_split_threshold_dichotomy_witness :
    lookupB splitDemoS.blocks 0 = some ⟨0, 80, 80, true, none, none⟩ ∧
    remove_from_free_list splitDemoS 0 = some splitDemoS1 ∧
    lookupB splitDemoS.blocks (0 + HDR + 16 + FTR) = none ∧
    HDR + FTR + 8 ≤ (80 : Nat) - 16 ∧
    (∃ sInt, split_block splitDemoS 0 16 = coalesce_next sInt (0 + HDR + 16 + FTR) ∧
      (∃ b1, lookupB sInt.blocks 0 = some b1 ∧
         b1.size = 16 ∧ b1.ftr = 16 ∧ b1.free = false) ∧
      (∃ r1, lookupB sInt.blocks (0 + HDR + 16 + FTR) = some r1 ∧
         r1.size = 80 - 16 - HDR - FTR ∧ r1.ftr = 80 - 16 - HDR - FTR ∧
         r1.free = true) ∧
      sInt.freeHead = some (0 + HDR + 16 + FTR) ∧
      sInt.blocks.length = splitDemoS.blocks.length + 1) :=
  ⟨by decide, by rfl, by decide, by decide,
   (C7_split_threshold_dichotomy splitDemoS splitDemoS1 0 16 ⟨0, 80, 80, true, none, none⟩
     (by decide) (by decide) (by decide) (by rfl) (by decide)).2 (by decide)⟩

/-- C1 as stated is false: zero_allocate(1, 9) succeeds on staleByteS by
    reusing its free block, whose usable payload is aligned_size (1*9) =
    16 bytes at address 32, yet the payload byte at offset 9 — inside the
    usable payload since 9 < 16 — still holds the stale value 1: only the
    first count * elem_size = 9 bytes were zero-filled by memset. -/
theorem C1_counterexample :
    callocPtr staleByteS 1 9 = some 32 ∧ aligned_size (1 * 9) = 16 ∧
    callocByte staleByteS 1 9 9 = some 1 := by decide

/-- C1 amended: when zero_allocate(count, elem_size) succeeds, the first
    count * elem_size bytes of the returned payload are all 0 immediately
    after the call (bytes of the aligned payload beyond that product may
    keep stale values, as C1_counterexample shows). -/
theorem C1_zero_fill_amended (s s1 : AllocState) (num sz p i : Nat)
    (h : calloc s num sz = some (some p, s1)) (hi : i < num * sz) :
    s1.mem (p + i) = 0 := by
  unfold calloc at h
  by_cases h0 : num = 0 ∨ sz = 0
  · rw [if_pos h0] at h
    simp at h
  · rw [if_neg h0] at h
    push_neg at h0
    have hnum : 0 < num := Nat.pos_of_ne_zero h0.1
    by_cases hdiv : num * sz % W / num = sz
    · rw [if_pos hdiv] at h
      have htot : num * sz ≤ num * sz % W := by
        have : sz ≤ num * sz % W / num := le_of_eq hdiv.symm
        have := (Nat.le_div_iff_mul_le hnum).mp this
        calc num * sz = sz * num := Nat.mul_comm _ _
          _ ≤ num * sz % W := this
      cases hm : malloc s (num * sz % W) with
      | none => rw [hm] at h; simp at h
      | some rs =>
        obtain ⟨r, s2⟩ := rs
        cases r with
        | none => rw [hm] at h; simp at h
        | some q =>
          rw [hm] at h
          simp only [Option.some.injEq, Prod.mk.injEq] at h
          obtain ⟨hq, hs⟩ := h
          rw [← hs, ← hq]
          show (if q ≤ q + i ∧ q + i < q + num * sz % W then 0 else s2.mem (q + i)) = 0
          exact if_pos ⟨Nat.le_add_right _ _, by omega⟩
    · rw [if_neg hdiv] at h
      simp at h

/-- Witness for C1 amended: zero_allocate(2, 4) on the fresh heap returns
    pointer 32 with state callocFreshS, and byte 3 (< 2*4) of the payload
    is 0. -/
theorem C1_zero_fill_amended_witness :
    calloc initialState 2 4 = some (some 32, callocFreshS) ∧ 3 < 2 * 4 ∧
    callocFreshS.mem (32 + 3) = 0 :=
  ⟨rfl, by decide, C1_zero_fill_amended initialState callocFreshS 2 4 32 3 rfl (by decide)⟩

end Alloc
